import Mathlib

/-!
Shallow embedding of the BankingApp server core (src/shared/schema.ts,
src/server/storage.ts, src/server/routes.ts).

The in-memory maps of MemStorage are modelled as lists in insertion order
(JavaScript Map iteration order is insertion order, and Map.set on an
existing key keeps its position, modelled as an in-place replacement).
Currency amounts are modelled as exact rationals; timestamps and the
randomly generated account numbers are taken as explicit parameters.
Route handlers return the unchanged storage together with the error when
they fail, mirroring the early returns of routes.ts that happen before
any mutation.
-/

/-- User record (schema.ts, table users). -/
structure User where
  id : Nat
  firstName : String
  lastName : String
  email : String
  password : String
  phone : Option String
  address : Option String
  deriving Repr, DecidableEq

/-- Account record (schema.ts, table accounts). -/
structure Account where
  id : Nat
  userId : Nat
  type : String
  accountNumber : String
  balance : ℚ
  createdAt : Nat
  deriving Repr, DecidableEq

/-- Transaction record (schema.ts, table transactions). -/
structure Transaction where
  id : Nat
  userId : Nat
  accountId : Nat
  type : String
  amount : ℚ
  description : String
  date : Nat
  toAccountId : Option Nat
  deriving Repr, DecidableEq

/-- Insert payload for users (insertUserSchema). -/
structure InsertUser where
  firstName : String
  lastName : String
  email : String
  password : String
  phone : Option String
  address : Option String
  deriving Repr, DecidableEq

/-- Insert payload for accounts (insertAccountSchema). -/
structure InsertAccount where
  userId : Nat
  type : String
  accountNumber : String
  balance : ℚ
  deriving Repr, DecidableEq

/-- Insert payload for transactions (insertTransactionSchema). -/
structure InsertTransaction where
  userId : Nat
  accountId : Nat
  type : String
  amount : ℚ
  description : String
  toAccountId : Option Nat
  deriving Repr, DecidableEq

/-- The state of MemStorage (storage.ts): three stores plus id counters. -/
structure MemStorage where
  users : List User
  accounts : List Account
  transactions : List Transaction
  userIdCounter : Nat
  accountIdCounter : Nat
  transactionIdCounter : Nat
  deriving Repr, DecidableEq

/-- A Partial User patch as passed to MemStorage.updateUser; a field set to
none is absent from the patch and the spread keeps the stored value. -/
structure UserPatch where
  firstName : Option String := none
  lastName : Option String := none
  email : Option String := none
  password : Option String := none
  phone : Option (Option String) := none
  address : Option (Option String) := none
  deriving Repr, DecidableEq

/-- The object spread of storage.ts line 94: fields present in the patch
override the stored user. -/
def applyUserPatch (u : User) (p : UserPatch) : User :=
  { u with
    firstName := p.firstName.getD u.firstName
    lastName := p.lastName.getD u.lastName
    email := p.email.getD u.email
    password := p.password.getD u.password
    phone := p.phone.getD u.phone
    address := p.address.getD u.address }

/-- MemStorage.getUserById. -/
def getUserById (st : MemStorage) (id : Nat) : Option User :=
  st.users.find? (fun u => u.id == id)

/-- MemStorage.getUserByEmail: first user in insertion order whose email
matches. -/
def getUserByEmail (st : MemStorage) (email : String) : Option User :=
  st.users.find? (fun u => u.email == email)

/-- MemStorage.updateUser: spread the patch over the stored user and put the
result back under the same key. -/
def updateUser (st : MemStorage) (id : Nat) (patch : UserPatch) :
    MemStorage × Option User :=
  match st.users.find? (fun u => u.id == id) with
  | none => (st, none)
  | some user =>
    let updatedUser := applyUserPatch user patch
    ({ st with users := st.users.map (fun u => if u.id == id then updatedUser else u) },
     some updatedUser)

/-- MemStorage.validateUserPassword: plain string equality on the stored
password of the first user with the given email. -/
def validateUserPassword (st : MemStorage) (email password : String) : Option User :=
  match getUserByEmail st email with
  | some user => if user.password == password then some user else none
  | none => none

/-- MemStorage.createAccount; the creation timestamp is a parameter. -/
def createAccount (st : MemStorage) (accountData : InsertAccount) (now : Nat) :
    MemStorage × Account :=
  let id := st.accountIdCounter
  let account : Account :=
    { id := id, userId := accountData.userId, type := accountData.type,
      accountNumber := accountData.accountNumber, balance := accountData.balance,
      createdAt := now }
  ({ st with accounts := st.accounts ++ [account], accountIdCounter := id + 1 }, account)

/-- MemStorage.createUser: stores the user and provisions the three default
accounts (checking 2500.00, savings 10000.00, credit 0.00); the generated
account numbers are parameters n1 n2 n3. -/
def createUser (st : MemStorage) (userData : InsertUser) (n1 n2 n3 : String) (now : Nat) :
    MemStorage × User :=
  let id := st.userIdCounter
  let user : User :=
    { id := id, firstName := userData.firstName, lastName := userData.lastName,
      email := userData.email, password := userData.password,
      phone := userData.phone, address := userData.address }
  let st1 := { st with users := st.users ++ [user], userIdCounter := id + 1 }
  let st2 := (createAccount st1
    { userId := id, type := "checking", accountNumber := n1, balance := 2500 } now).1
  let st3 := (createAccount st2
    { userId := id, type := "savings", accountNumber := n2, balance := 10000 } now).1
  let st4 := (createAccount st3
    { userId := id, type := "credit", accountNumber := n3, balance := 0 } now).1
  (st4, user)

/-- MemStorage.getAccountById. -/
def getAccountById (st : MemStorage) (id : Nat) : Option Account :=
  st.accounts.find? (fun a => a.id == id)

/-- MemStorage.getAccountsByUserId: insertion order. -/
def getAccountsByUserId (st : MemStorage) (userId : Nat) : List Account :=
  st.accounts.filter (fun a => a.userId == userId)

/-- MemStorage.updateAccountBalance: read the account, add the (signed)
amount to its balance, store the result back under the same key. -/
def updateAccountBalance (st : MemStorage) (id : Nat) (amount : ℚ) :
    MemStorage × Option Account :=
  match st.accounts.find? (fun a => a.id == id) with
  | none => (st, none)
  | some account =>
    let updatedAccount := { account with balance := account.balance + amount }
    ({ st with accounts := st.accounts.map (fun a => if a.id == id then updatedAccount else a) },
     some updatedAccount)

/-- MemStorage.createTransaction; the timestamp is a parameter. -/
def createTransaction (st : MemStorage) (t : InsertTransaction) (now : Nat) :
    MemStorage × Transaction :=
  let id := st.transactionIdCounter
  let tx : Transaction :=
    { id := id, userId := t.userId, accountId := t.accountId, type := t.type,
      amount := t.amount, description := t.description, date := now,
      toAccountId := t.toAccountId }
  ({ st with transactions := st.transactions ++ [tx], transactionIdCounter := id + 1 }, tx)

/-- One step of the stable sort used by getTransactionsBy* : x is placed
before the first element with a strictly smaller date and after every
element with an equal or larger date. -/
def insertByDateDesc (x : Transaction) : List Transaction → List Transaction
  | [] => [x]
  | y :: ys => if y.date < x.date then x :: y :: ys else y :: insertByDateDesc x ys

/-- The JavaScript stable Array.sort with comparator
b.date.getTime() - a.date.getTime(): descending by date, ties kept in
input (insertion) order. A stable sort by a total preorder has a unique
result, so this stable insertion sort computes the same list. -/
def sortByDateDesc (l : List Transaction) : List Transaction :=
  l.foldl (fun acc x => insertByDateDesc x acc) []

/-- MemStorage.getTransactionsByUserId: filter in insertion order, then the
stable descending sort by date. -/
def getTransactionsByUserId (st : MemStorage) (userId : Nat) : List Transaction :=
  sortByDateDesc (st.transactions.filter (fun t => t.userId == userId))

/-- MemStorage.getTransactionsByAccountId: same with the account filter. -/
def getTransactionsByAccountId (st : MemStorage) (accountId : Nat) : List Transaction :=
  sortByDateDesc (st.transactions.filter (fun t => t.accountId == accountId))

/-- Error outcomes of the route handlers in routes.ts, named after the
HTTP responses they produce. -/
inductive ApiError where
  | PermissionDenied
  | NotFound
  | InsufficientFunds
  | DuplicateEmail
  | InvalidCredentials
  deriving Repr, DecidableEq

/-- POST /api/auth/register (routes.ts): reject a duplicate email, else
create the user with the three default accounts. -/
def registerUser (st : MemStorage) (userData : InsertUser) (n1 n2 n3 : String) (now : Nat) :
    MemStorage × Except ApiError User :=
  match getUserByEmail st userData.email with
  | some _ => (st, .error .DuplicateEmail)
  | none =>
    let r := createUser st userData n1 n2 n3 now
    (r.1, .ok r.2)

/-- POST /api/auth/login (routes.ts): credentials are checked by
validateUserPassword. -/
def login (st : MemStorage) (email password : String) : Except ApiError User :=
  match validateUserPassword st email password with
  | some user => .ok user
  | none => .error .InvalidCredentials

/-- POST /api/transactions/deposit (routes.ts lines 206 to 236). A missing
account and a foreign account both take the same 403 branch. -/
def deposit (st : MemStorage) (callerUserId accountId : Nat) (amount : ℚ)
    (description : String) (now : Nat) : MemStorage × Except ApiError Transaction :=
  match getAccountById st accountId with
  | none => (st, .error .PermissionDenied)
  | some account =>
    if account.userId ≠ callerUserId then (st, .error .PermissionDenied)
    else
      let st1 := (updateAccountBalance st account.id amount).1
      let r := createTransaction st1
        { userId := callerUserId, accountId := account.id, type := "deposit",
          amount := amount, description := description, toAccountId := none } now
      (r.1, .ok r.2)

/-- POST /api/transactions/withdrawal (routes.ts lines 239 to 274): the
funds check is skipped for credit-type accounts. -/
def withdrawal (st : MemStorage) (callerUserId accountId : Nat) (amount : ℚ)
    (description : String) (now : Nat) : MemStorage × Except ApiError Transaction :=
  match getAccountById st accountId with
  | none => (st, .error .PermissionDenied)
  | some account =>
    if account.userId ≠ callerUserId then (st, .error .PermissionDenied)
    else if account.type ≠ "credit" ∧ account.balance < amount then
      (st, .error .InsufficientFunds)
    else
      let st1 := (updateAccountBalance st account.id (-amount)).1
      let r := createTransaction st1
        { userId := callerUserId, accountId := account.id, type := "withdrawal",
          amount := -amount, description := description, toAccountId := none } now
      (r.1, .ok r.2)

/-- POST /api/transactions/transfer (routes.ts lines 153 to 203): ownership
check on the source, existence check on the destination, a funds check
with no credit-type exemption, two balance updates, two ledger appends
(the second with its own timestamp), and the debit leg as the result. -/
def transfer (st : MemStorage) (callerUserId fromAccountId toAccountId : Nat)
    (amount : ℚ) (description : String) (now1 now2 : Nat) :
    MemStorage × Except ApiError Transaction :=
  match getAccountById st fromAccountId with
  | none => (st, .error .PermissionDenied)
  | some fromAccount =>
    if fromAccount.userId ≠ callerUserId then (st, .error .PermissionDenied)
    else
      match getAccountById st toAccountId with
      | none => (st, .error .NotFound)
      | some toAccount =>
        if fromAccount.balance < amount then (st, .error .InsufficientFunds)
        else
          let st1 := (updateAccountBalance st fromAccount.id (-amount)).1
          let st2 := (updateAccountBalance st1 toAccount.id amount).1
          let r1 := createTransaction st2
            { userId := callerUserId, accountId := fromAccount.id, type := "transfer",
              amount := -amount, description := description,
              toAccountId := some toAccount.id } now1
          let r2 := createTransaction r1.1
            { userId := toAccount.userId, accountId := toAccount.id, type := "transfer",
              amount := amount,
              description := "Transfer from account " ++ fromAccount.accountNumber,
              toAccountId := none } now2
          (r2.1, .ok r1.2)

/-- PUT /api/profile (routes.ts lines 279 to 301): the parsed
updateProfileSchema payload, phone and address optional. -/
structure UpdateProfile where
  firstName : String
  lastName : String
  email : String
  phone : Option String := none
  address : Option String := none
  deriving Repr, DecidableEq

/-- PUT /api/profile: updates the user through MemStorage.updateUser with
no uniqueness check on the new email. -/
def updateProfile (st : MemStorage) (userId : Nat) (profileData : UpdateProfile) :
    MemStorage × Except ApiError User :=
  let r := updateUser st userId
    { firstName := some profileData.firstName, lastName := some profileData.lastName,
      email := some profileData.email,
      phone := profileData.phone.map some, address := profileData.address.map some }
  match r.2 with
  | none => (r.1, .error .NotFound)
  | some u => (r.1, .ok u)

/-- PUT /api/profile/password (routes.ts lines 304 to 328): re-verify the
current password, then store the new one. -/
def changePassword (st : MemStorage) (userId : Nat)
    (currentPassword newPassword : String) : MemStorage × Except ApiError Unit :=
  match getUserById st userId with
  | none => (st, .error .NotFound)
  | some user =>
    if user.password ≠ currentPassword then (st, .error .InvalidCredentials)
    else
      let r := updateUser st userId { password := some newPassword }
      (r.1, .ok ())

/-! ## Helper lemmas about the store operations -/

/-- Keyed replacement is invisible to a lookup for a different id. -/
lemma find?_map_update_other (l : List Account) (id id' : Nat) (upd : Account)
    (hupd : upd.id = id) (hne : id' ≠ id) :
    (l.map (fun a => if a.id == id then upd else a)).find? (fun a => a.id == id') =
      l.find? (fun a => a.id == id') := by
  have hupd' : (upd.id == id') = false := by
    simp only [beq_eq_false_iff_ne, ne_eq, hupd]
    exact fun h => hne h.symm
  induction l with
  | nil => rfl
  | cons a l ih =>
    simp only [List.map_cons]
    by_cases ha : a.id = id
    · have h1 : (a.id == id) = true := by simpa using ha
      have h3 : (a.id == id') = false := by
        simp only [beq_eq_false_iff_ne, ne_eq, ha]
        exact fun h => hne h.symm
      rw [if_pos h1, List.find?_cons, List.find?_cons]
      simp only [hupd', h3]
      exact ih
    · have h1 : ¬((a.id == id) = true) := by simpa using ha
      rw [if_neg h1, List.find?_cons, List.find?_cons]
      cases h2 : (a.id == id')
      · simp only [h2]
        exact ih
      · simp only [h2]

/-- Keyed replacement is what a lookup for the replaced id sees, provided the
replacement keeps the key. -/
lemma find?_map_update_self (l : List Account) (id : Nat) (upd : Account)
    (hupd : upd.id = id) (a0 : Account)
    (h : l.find? (fun a => a.id == id) = some a0) :
    (l.map (fun a => if a.id == id then upd else a)).find? (fun a => a.id == id) =
      some upd := by
  induction l with
  | nil => simp at h
  | cons a l ih =>
    simp only [List.map_cons]
    rw [List.find?_cons] at h
    by_cases ha : a.id = id
    · have h1 : (a.id == id) = true := by simpa using ha
      have h2 : (upd.id == id) = true := by simpa using hupd
      rw [if_pos h1, List.find?_cons]
      simp only [h2]
    · have h1 : (a.id == id) = false := by simpa using ha
      have h1' : ¬((a.id == id) = true) := by simp [h1]
      simp only [h1] at h
      rw [if_neg h1', List.find?_cons]
      simp only [h1]
      exact ih h

/-- updateAccountBalance does not touch users, transactions or counters. -/
lemma updateAccountBalance_frame (st : MemStorage) (id : Nat) (amount : ℚ) :
    (updateAccountBalance st id amount).1.users = st.users ∧
    (updateAccountBalance st id amount).1.transactions = st.transactions ∧
    (updateAccountBalance st id amount).1.userIdCounter = st.userIdCounter ∧
    (updateAccountBalance st id amount).1.accountIdCounter = st.accountIdCounter ∧
    (updateAccountBalance st id amount).1.transactionIdCounter = st.transactionIdCounter := by
  unfold updateAccountBalance
  cases h : st.accounts.find? (fun a => a.id == id) <;> simp

/-- When the account exists, updateAccountBalance adds the signed amount to
its balance and leaves every other id unchanged. -/
lemma updateAccountBalance_found (st : MemStorage) (id : Nat) (amount : ℚ)
    (a0 : Account) (h : getAccountById st id = some a0) :
    getAccountById (updateAccountBalance st id amount).1 id =
      some { a0 with balance := a0.balance + amount } ∧
    ∀ id', id' ≠ id →
      getAccountById (updateAccountBalance st id amount).1 id' = getAccountById st id' := by
  have ha0 : a0.id = id := by
    have := List.find?_some h
    simpa using this
  unfold getAccountById at h ⊢
  unfold updateAccountBalance
  rw [h]
  constructor
  · simpa using find?_map_update_self st.accounts id _ (by simpa using ha0) a0 h
  · intro id' hne
    simpa using find?_map_update_other st.accounts id id' _ (by simpa using ha0) hne

/-- createTransaction appends exactly its record and touches nothing else. -/
lemma createTransaction_spec (st : MemStorage) (t : InsertTransaction) (now : Nat) :
    (createTransaction st t now).1.accounts = st.accounts ∧
    (createTransaction st t now).1.users = st.users ∧
    (createTransaction st t now).1.transactions =
      st.transactions ++ [(createTransaction st t now).2] ∧
    (createTransaction st t now).2.userId = t.userId ∧
    (createTransaction st t now).2.accountId = t.accountId ∧
    (createTransaction st t now).2.type = t.type ∧
    (createTransaction st t now).2.amount = t.amount ∧
    (createTransaction st t now).2.description = t.description ∧
    (createTransaction st t now).2.date = now ∧
    (createTransaction st t now).2.toAccountId = t.toAccountId := by
  unfold createTransaction
  simp

/-- Lookup only depends on the accounts list. -/
lemma getAccountById_congr (st st' : MemStorage) (h : st.accounts = st'.accounts)
    (id : Nat) : getAccountById st id = getAccountById st' id := by
  unfold getAccountById
  rw [h]

/-- The success path of the transfer handler, written out once: two balance
updates followed by the two ledger appends; the first component is the new
state and the second the debit leg. -/
def transferApply (st : MemStorage) (callerUserId : Nat) (fromAccount toAccount : Account)
    (amount : ℚ) (description : String) (now1 now2 : Nat) : MemStorage × Transaction :=
  let st1 := (updateAccountBalance st fromAccount.id (-amount)).1
  let st2 := (updateAccountBalance st1 toAccount.id amount).1
  let r1 := createTransaction st2
    { userId := callerUserId, accountId := fromAccount.id, type := "transfer",
      amount := -amount, description := description,
      toAccountId := some toAccount.id } now1
  let r2 := createTransaction r1.1
    { userId := toAccount.userId, accountId := toAccount.id, type := "transfer",
      amount := amount,
      description := "Transfer from account " ++ fromAccount.accountNumber,
      toAccountId := none } now2
  (r2.1, r1.2)

/-- A successful transfer means: the source resolved and was owned by the
caller, the destination resolved, the funds check passed, and the result is
exactly the success path transferApply. -/
lemma transfer_ok_elim (st st' : MemStorage) (c fa ta : Nat) (amount : ℚ)
    (d : String) (n1 n2 : Nat) (tx : Transaction)
    (h : transfer st c fa ta amount d n1 n2 = (st', .ok tx)) :
    ∃ aFrom aTo,
      getAccountById st fa = some aFrom ∧ aFrom.userId = c ∧
      getAccountById st ta = some aTo ∧ ¬(aFrom.balance < amount) ∧
      st' = (transferApply st c aFrom aTo amount d n1 n2).1 ∧
      tx = (transferApply st c aFrom aTo amount d n1 n2).2 := by
  unfold transfer at h
  cases hfa : getAccountById st fa with
  | none =>
    simp only [hfa] at h
    exact Except.noConfusion (congrArg Prod.snd h)
  | some aFrom =>
    simp only [hfa] at h
    by_cases howner : aFrom.userId ≠ c
    · rw [if_pos howner] at h
      exact Except.noConfusion (congrArg Prod.snd h)
    · rw [if_neg howner] at h
      cases hta : getAccountById st ta with
      | none =>
        simp only [hta] at h
        exact Except.noConfusion (congrArg Prod.snd h)
      | some aTo =>
        simp only [hta] at h
        by_cases hbal : aFrom.balance < amount
        · rw [if_pos hbal] at h
          exact Except.noConfusion (congrArg Prod.snd h)
        · rw [if_neg hbal] at h
          refine ⟨aFrom, aTo, rfl, not_not.mp howner, rfl, hbal, ?_, ?_⟩
          · exact (congrArg Prod.fst h).symm
          · exact (Except.ok.inj (congrArg Prod.snd h)).symm

/-- C1: for every successful transfer of amount a between distinct accounts,
the destination balance increases by exactly a, the source balance
decreases by exactly a, and the record stored under every other account id
is unchanged. -/
theorem transfer_conservation (st st' : MemStorage) (c fa ta : Nat) (amount : ℚ)
    (d : String) (n1 n2 : Nat) (tx : Transaction)
    (hne : fa ≠ ta)
    (h : transfer st c fa ta amount d n1 n2 = (st', .ok tx)) :
    ∃ aFrom aTo aFrom' aTo',
      getAccountById st fa = some aFrom ∧ getAccountById st ta = some aTo ∧
      getAccountById st' fa = some aFrom' ∧ getAccountById st' ta = some aTo' ∧
      aFrom'.balance = aFrom.balance - amount ∧
      aTo'.balance = aTo.balance + amount ∧
      ∀ id, id ≠ fa → id ≠ ta → getAccountById st' id = getAccountById st id := by
  obtain ⟨aFrom, aTo, hfa, _, hta, _, hst, _⟩ :=
    transfer_ok_elim st st' c fa ta amount d n1 n2 tx h
  have hfaid : aFrom.id = fa := by simpa using List.find?_some hfa
  have htaid : aTo.id = ta := by simpa using List.find?_some hta
  have hidne : aTo.id ≠ aFrom.id := by
    rw [hfaid, htaid]
    exact fun hh => hne hh.symm
  have h1 := updateAccountBalance_found st aFrom.id (-amount) aFrom (by rw [hfaid]; exact hfa)
  have h2pre : getAccountById (updateAccountBalance st aFrom.id (-amount)).1 aTo.id = some aTo := by
    rw [h1.2 aTo.id hidne, htaid]
    exact hta
  have h2 := updateAccountBalance_found (updateAccountBalance st aFrom.id (-amount)).1
    aTo.id amount aTo h2pre
  have hacc : st'.accounts =
      ((updateAccountBalance (updateAccountBalance st aFrom.id (-amount)).1 aTo.id amount).1).accounts := by
    rw [hst]
    unfold transferApply
    rw [(createTransaction_spec _ _ n2).1, (createTransaction_spec _ _ n1).1]
  have hlook : ∀ x, getAccountById st' x =
      getAccountById (updateAccountBalance (updateAccountBalance st aFrom.id (-amount)).1 aTo.id amount).1 x :=
    fun x => getAccountById_congr _ _ hacc x
  refine ⟨aFrom, aTo, { aFrom with balance := aFrom.balance + (-amount) },
    { aTo with balance := aTo.balance + amount }, hfa, hta, ?_, ?_, ?_, ?_, ?_⟩
  · rw [hlook fa, ← hfaid, h2.2 aFrom.id (fun hh => hidne hh.symm)]
    exact h1.1
  · rw [hlook ta, ← htaid]
    exact h2.1
  · simp [sub_eq_add_neg]
  · simp
  · intro id hidfa hidta
    rw [hlook id, h2.2 id (by rw [htaid]; exact hidta), h1.2 id (by rw [hfaid]; exact hidfa)]

/-- Concrete two-user, two-account state used to exercise the theorems. -/
def acctA : Account :=
  { id := 1, userId := 1, type := "checking", accountNumber := "AA11",
    balance := 2500, createdAt := 0 }

/-- Second concrete account, owned by another user. -/
def acctB : Account :=
  { id := 2, userId := 2, type := "savings", accountNumber := "BB22",
    balance := 10000, createdAt := 0 }

/-- Store holding acctA and acctB and an empty ledger. -/
def stPair : MemStorage :=
  { users := [], accounts := [acctA, acctB], transactions := [],
    userIdCounter := 3, accountIdCounter := 3, transactionIdCounter := 1 }

/-- Debit leg produced by the 500 transfer from acctA to acctB in stPair. -/
def txPairDebit : Transaction :=
  { id := 1, userId := 1, accountId := 1, type := "transfer", amount := -500,
    description := "rent", date := 5, toAccountId := some 2 }

/-- Credit leg produced by the same transfer. -/
def txPairCredit : Transaction :=
  { id := 2, userId := 2, accountId := 2, type := "transfer", amount := 500,
    description := "Transfer from account AA11", date := 6, toAccountId := none }

/-- The state after the 500 transfer from acctA to acctB in stPair
(balances 2000 and 10500, ledger [txPairDebit, txPairCredit]). -/
def stPairAfter : MemStorage :=
  (transfer stPair 1 1 2 500 "rent" 5 6).1

/-- Witness for C1: the concrete 500 transfer from acctA to acctB satisfies
the hypotheses of transfer_conservation, and its conclusion holds there. -/
theorem transfer_conservation_witness :
    (1 : Nat) ≠ 2 ∧
    transfer stPair 1 1 2 500 "rent" 5 6 = (stPairAfter, .ok txPairDebit) ∧
    (∃ aFrom aTo aFrom' aTo',
      getAccountById stPair 1 = some aFrom ∧ getAccountById stPair 2 = some aTo ∧
      getAccountById stPairAfter 1 = some aFrom' ∧
      getAccountById stPairAfter 2 = some aTo' ∧
      aFrom'.balance = aFrom.balance - 500 ∧
      aTo'.balance = aTo.balance + 500 ∧
      ∀ id, id ≠ 1 → id ≠ 2 → getAccountById stPairAfter id = getAccountById stPair id) :=
  ⟨by decide, by rfl,
   transfer_conservation stPair stPairAfter 1 1 2 500 "rent" 5 6 txPairDebit
     (by decide) (by rfl)⟩

/-- The ledger effect of the transfer success path: the two appended legs. -/
lemma transferApply_transactions (st : MemStorage) (c : Nat) (aFrom aTo : Account)
    (amount : ℚ) (d : String) (n1 n2 : Nat) :
    ∃ creditTx,
      (transferApply st c aFrom aTo amount d n1 n2).1.transactions =
        st.transactions ++ [(transferApply st c aFrom aTo amount d n1 n2).2, creditTx] ∧
      creditTx.userId = aTo.userId ∧ creditTx.accountId = aTo.id ∧
      creditTx.type = "transfer" ∧ creditTx.amount = amount ∧
      creditTx.description = "Transfer from account " ++ aFrom.accountNumber ∧
      creditTx.toAccountId = none := by
  have hf1 := (updateAccountBalance_frame st aFrom.id (-amount)).2.1
  have hf2 := (updateAccountBalance_frame (updateAccountBalance st aFrom.id (-amount)).1
    aTo.id amount).2.1
  unfold transferApply createTransaction
  dsimp only
  refine ⟨{ id := ((updateAccountBalance (updateAccountBalance st aFrom.id (-amount)).1 aTo.id amount).1).transactionIdCounter + 1,
            userId := aTo.userId, accountId := aTo.id, type := "transfer", amount := amount,
            description := "Transfer from account " ++ aFrom.accountNumber, date := n2,
            toAccountId := none }, ?_, rfl, rfl, rfl, rfl, rfl, rfl⟩
  rw [hf2, hf1]
  simp

/-- The debit leg fields of the transfer success path. -/
lemma transferApply_debit_fields (st : MemStorage) (c : Nat) (aFrom aTo : Account)
    (amount : ℚ) (d : String) (n1 n2 : Nat) :
    (transferApply st c aFrom aTo amount d n1 n2).2.userId = c ∧
    (transferApply st c aFrom aTo amount d n1 n2).2.accountId = aFrom.id ∧
    (transferApply st c aFrom aTo amount d n1 n2).2.type = "transfer" ∧
    (transferApply st c aFrom aTo amount d n1 n2).2.amount = -amount ∧
    (transferApply st c aFrom aTo amount d n1 n2).2.description = d ∧
    (transferApply st c aFrom aTo amount d n1 n2).2.toAccountId = some aTo.id := by
  unfold transferApply createTransaction
  exact ⟨rfl, rfl, rfl, rfl, rfl, rfl⟩

/-- Deposit appends at most one ledger record. -/
lemma deposit_appends_at_most_one (st : MemStorage) (c a : Nat) (amt : ℚ)
    (d : String) (n : Nat) :
    (deposit st c a amt d n).1.transactions = st.transactions ∨
    ∃ t, (deposit st c a amt d n).1.transactions = st.transactions ++ [t] := by
  unfold deposit
  cases hacc : getAccountById st a with
  | none => left; rfl
  | some account =>
    dsimp only
    by_cases hown : account.userId ≠ c
    · rw [if_pos hown]
      left
      rfl
    · rw [if_neg hown]
      right
      exact ⟨_, by
        rw [(createTransaction_spec _ _ n).2.2.1,
          (updateAccountBalance_frame st account.id amt).2.1]⟩

/-- Withdrawal appends at most one ledger record. -/
lemma withdrawal_appends_at_most_one (st : MemStorage) (c a : Nat) (amt : ℚ)
    (d : String) (n : Nat) :
    (withdrawal st c a amt d n).1.transactions = st.transactions ∨
    ∃ t, (withdrawal st c a amt d n).1.transactions = st.transactions ++ [t] := by
  unfold withdrawal
  cases hacc : getAccountById st a with
  | none => left; rfl
  | some account =>
    dsimp only
    by_cases hown : account.userId ≠ c
    · rw [if_pos hown]
      left
      rfl
    · rw [if_neg hown]
      by_cases hfunds : account.type ≠ "credit" ∧ account.balance < amt
      · rw [if_pos hfunds]
        left
        rfl
      · rw [if_neg hfunds]
        right
        exact ⟨_, by
          rw [(createTransaction_spec _ _ n).2.2.1,
            (updateAccountBalance_frame st account.id (-amt)).2.1]⟩

/-- User creation never touches the ledger. -/
lemma createUser_transactions (st : MemStorage) (u : InsertUser)
    (n1 n2 n3 : String) (now : Nat) :
    (createUser st u n1 n2 n3 now).1.transactions = st.transactions := rfl

/-- Registration never touches the ledger. -/
lemma registerUser_transactions (st : MemStorage) (u : InsertUser)
    (n1 n2 n3 : String) (now : Nat) :
    (registerUser st u n1 n2 n3 now).1.transactions = st.transactions := by
  unfold registerUser
  cases h : getUserByEmail st u.email with
  | none =>
    dsimp only
    exact createUser_transactions st u n1 n2 n3 now
  | some _ => rfl

/-- The storage-level user update never touches the ledger. -/
lemma updateUser_transactions (st : MemStorage) (uid : Nat) (p : UserPatch) :
    (updateUser st uid p).1.transactions = st.transactions := by
  unfold updateUser
  cases h : st.users.find? (fun u => u.id == uid) <;> rfl

/-- The profile route never touches the ledger. -/
lemma updateProfile_transactions (st : MemStorage) (uid : Nat) (pd : UpdateProfile) :
    (updateProfile st uid pd).1.transactions = st.transactions := by
  unfold updateProfile
  dsimp only
  split <;> exact updateUser_transactions st uid _

/-- The password route never touches the ledger. -/
lemma changePassword_transactions (st : MemStorage) (uid : Nat)
    (cp np : String) :
    (changePassword st uid cp np).1.transactions = st.transactions := by
  unfold changePassword
  cases h : getUserById st uid with
  | none => rfl
  | some user =>
    dsimp only
    by_cases hc : user.password ≠ cp
    · rw [if_pos hc]
    · rw [if_neg hc]
      exact updateUser_transactions st uid _

/-- C4: every successful transfer appends exactly the two paired legs (debit
leg returned, carrying the destination id; credit leg on the destination
with the fixed description and no counterparty; amounts summing to zero),
the deposit and withdrawal handlers never append more than one record,
and the remaining operations never append at all. -/
theorem transfer_pairing (st st' : MemStorage) (c fa ta : Nat) (amount : ℚ)
    (d : String) (n1 n2 : Nat) (tx : Transaction)
    (h : transfer st c fa ta amount d n1 n2 = (st', .ok tx)) :
    (∃ aFrom aTo creditTx,
      getAccountById st fa = some aFrom ∧ getAccountById st ta = some aTo ∧
      st'.transactions = st.transactions ++ [tx, creditTx] ∧
      tx.userId = c ∧ tx.accountId = fa ∧ tx.type = "transfer" ∧
      tx.amount = -amount ∧ tx.description = d ∧ tx.toAccountId = some ta ∧
      creditTx.userId = aTo.userId ∧ creditTx.accountId = ta ∧
      creditTx.type = "transfer" ∧ creditTx.amount = amount ∧
      creditTx.description = "Transfer from account " ++ aFrom.accountNumber ∧
      creditTx.toAccountId = none ∧
      tx.amount + creditTx.amount = 0) ∧
    (∀ st2 c2 a2 amt2 d2 m2, (deposit st2 c2 a2 amt2 d2 m2).1.transactions = st2.transactions ∨
      ∃ t, (deposit st2 c2 a2 amt2 d2 m2).1.transactions = st2.transactions ++ [t]) ∧
    (∀ st2 c2 a2 amt2 d2 m2, (withdrawal st2 c2 a2 amt2 d2 m2).1.transactions = st2.transactions ∨
      ∃ t, (withdrawal st2 c2 a2 amt2 d2 m2).1.transactions = st2.transactions ++ [t]) ∧
    (∀ st2 u m1 m2 m3 m4, (registerUser st2 u m1 m2 m3 m4).1.transactions = st2.transactions) ∧
    (∀ st2 uid pd, (updateProfile st2 uid pd).1.transactions = st2.transactions) ∧
    (∀ st2 uid cp np, (changePassword st2 uid cp np).1.transactions = st2.transactions) := by
  obtain ⟨aFrom, aTo, hfa, howner, hta, hbal, hst, htx⟩ :=
    transfer_ok_elim st st' c fa ta amount d n1 n2 tx h
  have hfaid : aFrom.id = fa := by simpa using List.find?_some hfa
  have htaid : aTo.id = ta := by simpa using List.find?_some hta
  obtain ⟨creditTx, hledger, hcu, hca, hct, hcam, hcd, hcto⟩ :=
    transferApply_transactions st c aFrom aTo amount d n1 n2
  obtain ⟨hdu, hda, hdt, hdam, hdd, hdto⟩ :=
    transferApply_debit_fields st c aFrom aTo amount d n1 n2
  refine ⟨⟨aFrom, aTo, creditTx, hfa, hta, ?_, ?_, ?_, ?_, ?_, ?_, ?_,
      hcu, ?_, hct, hcam, hcd, hcto, ?_⟩,
    fun st2 c2 a2 amt2 d2 m2 => deposit_appends_at_most_one st2 c2 a2 amt2 d2 m2,
    fun st2 c2 a2 amt2 d2 m2 => withdrawal_appends_at_most_one st2 c2 a2 amt2 d2 m2,
    fun st2 u m1 m2 m3 m4 => registerUser_transactions st2 u m1 m2 m3 m4,
    fun st2 uid pd => updateProfile_transactions st2 uid pd,
    fun st2 uid cp np => changePassword_transactions st2 uid cp np⟩
  · rw [hst, htx]
    exact hledger
  · rw [htx]
    exact hdu
  · rw [htx, hda, hfaid]
  · rw [htx]
    exact hdt
  · rw [htx]
    exact hdam
  · rw [htx]
    exact hdd
  · rw [htx, hdto, htaid]
  · rw [hca, htaid]
  · rw [htx, hdam, hcam]
    ring

/-- Witness for C4: the concrete 500 transfer in stPair produces exactly the
two paired ledger entries. -/
theorem transfer_pairing_witness :
    transfer stPair 1 1 2 500 "rent" 5 6 = (stPairAfter, .ok txPairDebit) ∧
    ((∃ aFrom aTo creditTx,
      getAccountById stPair 1 = some aFrom ∧ getAccountById stPair 2 = some aTo ∧
      stPairAfter.transactions = stPair.transactions ++ [txPairDebit, creditTx] ∧
      txPairDebit.userId = 1 ∧ txPairDebit.accountId = 1 ∧
      txPairDebit.type = "transfer" ∧ txPairDebit.amount = -500 ∧
      txPairDebit.description = "rent" ∧ txPairDebit.toAccountId = some 2 ∧
      creditTx.userId = aTo.userId ∧ creditTx.accountId = 2 ∧
      creditTx.type = "transfer" ∧ creditTx.amount = 500 ∧
      creditTx.description = "Transfer from account " ++ aFrom.accountNumber ∧
      creditTx.toAccountId = none ∧
      txPairDebit.amount + creditTx.amount = 0) ∧
    (∀ st2 c2 a2 amt2 d2 m2, (deposit st2 c2 a2 amt2 d2 m2).1.transactions = st2.transactions ∨
      ∃ t, (deposit st2 c2 a2 amt2 d2 m2).1.transactions = st2.transactions ++ [t]) ∧
    (∀ st2 c2 a2 amt2 d2 m2, (withdrawal st2 c2 a2 amt2 d2 m2).1.transactions = st2.transactions ∨
      ∃ t, (withdrawal st2 c2 a2 amt2 d2 m2).1.transactions = st2.transactions ++ [t]) ∧
    (∀ st2 u m1 m2 m3 m4, (registerUser st2 u m1 m2 m3 m4).1.transactions = st2.transactions) ∧
    (∀ st2 uid pd, (updateProfile st2 uid pd).1.transactions = st2.transactions) ∧
    (∀ st2 uid cp np, (changePassword st2 uid cp np).1.transactions = st2.transactions)) :=
  ⟨by rfl, transfer_pairing stPair stPairAfter 1 1 2 500 "rent" 5 6 txPairDebit (by rfl)⟩

/-- C2: withdrawal from an owned non-credit account with balance < amount
fails InsufficientFunds leaving the state untouched; withdrawal from an
owned credit-type account succeeds for any amount, debits the balance by
the amount, and appends one withdrawal record of amount -amount. -/
theorem withdrawal_funds_gate (st : MemStorage) (c a : Nat) (amount : ℚ)
    (d : String) (n : Nat) (account : Account)
    (hacc : getAccountById st a = some account)
    (hown : account.userId = c)
    (hpos : 0 < amount) :
    (account.type ≠ "credit" → account.balance < amount →
      withdrawal st c a amount d n = (st, .error .InsufficientFunds)) ∧
    (account.type = "credit" →
      ∃ st' tx, withdrawal st c a amount d n = (st', .ok tx) ∧
        (∃ a', getAccountById st' a = some a' ∧
          a'.balance = account.balance - amount) ∧
        st'.transactions = st.transactions ++ [tx] ∧
        tx.userId = c ∧ tx.accountId = a ∧ tx.type = "withdrawal" ∧
        tx.amount = -amount) := by
  have haid : account.id = a := by simpa using List.find?_some hacc
  have hown' : ¬(account.userId ≠ c) := not_not.mpr hown
  unfold withdrawal
  rw [hacc]
  dsimp only
  rw [if_neg hown']
  constructor
  · intro hnc hlt
    rw [if_pos ⟨hnc, hlt⟩]
  · intro hcr
    rw [if_neg (fun hc => hc.1 hcr)]
    have hbal := updateAccountBalance_found st account.id (-amount) account
      (by rw [haid]; exact hacc)
    have hspec := createTransaction_spec (updateAccountBalance st account.id (-amount)).1
      { userId := c, accountId := account.id, type := "withdrawal",
        amount := -amount, description := d, toAccountId := none } n
    refine ⟨_, _, rfl, ?_, ?_, ?_, ?_, ?_, ?_⟩
    · refine ⟨{ account with balance := account.balance + (-amount) }, ?_, by
        simp [sub_eq_add_neg]⟩
      rw [getAccountById_congr _ _ hspec.1 a, ← haid]
      exact hbal.1
    · rw [hspec.2.2.1, (updateAccountBalance_frame st account.id (-amount)).2.1]
    · exact hspec.2.2.2.1
    · rw [hspec.2.2.2.2.1]
      exact haid
    · exact hspec.2.2.2.2.2.1
    · exact hspec.2.2.2.2.2.2.1

/-- Witness for C2: withdrawing 3000 from the checking account acctA holding
2500 satisfies the hypotheses, and the funds-gate conclusion holds there. -/
theorem withdrawal_funds_gate_witness :
    getAccountById stPair 1 = some acctA ∧ acctA.userId = 1 ∧ (0 : ℚ) < 3000 ∧
    ((acctA.type ≠ "credit" → acctA.balance < 3000 →
      withdrawal stPair 1 1 3000 "w" 7 = (stPair, .error .InsufficientFunds)) ∧
    (acctA.type = "credit" →
      ∃ st' tx, withdrawal stPair 1 1 3000 "w" 7 = (st', .ok tx) ∧
        (∃ a', getAccountById st' 1 = some a' ∧
          a'.balance = acctA.balance - 3000) ∧
        st'.transactions = stPair.transactions ++ [tx] ∧
        tx.userId = 1 ∧ tx.accountId = 1 ∧ tx.type = "withdrawal" ∧
        tx.amount = -3000)) :=
  ⟨by rfl, by rfl, by norm_num,
   withdrawal_funds_gate stPair 1 1 3000 "w" 7 acctA (by rfl) (by rfl) (by norm_num)⟩

/-- A credit-type account with zero balance owned by user 1. -/
def acctCredit : Account :=
  { id := 3, userId := 1, type := "credit", accountNumber := "CC33",
    balance := 0, createdAt := 0 }

/-- Store holding the credit account and acctB. -/
def stCredit : MemStorage :=
  { users := [], accounts := [acctCredit, acctB], transactions := [],
    userIdCounter := 3, accountIdCounter := 4, transactionIdCounter := 1 }

/-- Counterexample to C3: the source account is credit-type, the caller owns
it, the destination exists, yet transferring 5 from balance 0 fails with
InsufficientFunds instead of succeeding: the transfer handler has no
credit-type exemption in its funds check. -/
theorem transfer_credit_exemption_cex :
    (getAccountById stCredit 3).map Account.type = some "credit" ∧
    (getAccountById stCredit 3).map Account.userId = some 1 ∧
    (getAccountById stCredit 2).isSome = true ∧
    transfer stCredit 1 3 2 5 "spend" 0 0 = (stCredit, .error .InsufficientFunds) :=
  ⟨by rfl, by rfl, by rfl, by rfl⟩

/-- C3 amended: the funds check of the transfer handler applies to every
source account regardless of its type: with ownership and destination
checks passing, the transfer fails InsufficientFunds (leaving the state
unchanged) exactly when source.balance < amount, also for credit-type
sources, and succeeds otherwise. -/
theorem transfer_funds_gate_all_types (st : MemStorage) (c fa ta : Nat) (amount : ℚ)
    (d : String) (n1 n2 : Nat) (fromAccount toAccount : Account)
    (hfa : getAccountById st fa = some fromAccount)
    (hown : fromAccount.userId = c)
    (hta : getAccountById st ta = some toAccount) :
    (fromAccount.balance < amount →
      transfer st c fa ta amount d n1 n2 = (st, .error .InsufficientFunds)) ∧
    (¬fromAccount.balance < amount →
      ∃ st' tx, transfer st c fa ta amount d n1 n2 = (st', .ok tx)) := by
  have hown' : ¬(fromAccount.userId ≠ c) := not_not.mpr hown
  unfold transfer
  rw [hfa]
  dsimp only
  rw [if_neg hown', hta]
  dsimp only
  constructor
  · intro hlt
    rw [if_pos hlt]
  · intro hge
    rw [if_neg hge]
    exact ⟨_, _, rfl⟩

/-- Witness for C3 amended: at the concrete credit-source state, both
directions of the amended funds gate hold. -/
theorem transfer_funds_gate_all_types_witness :
    getAccountById stCredit 3 = some acctCredit ∧ acctCredit.userId = 1 ∧
    getAccountById stCredit 2 = some acctB ∧
    ((acctCredit.balance < 5 →
      transfer stCredit 1 3 2 5 "spend" 0 0 = (stCredit, .error .InsufficientFunds)) ∧
    (¬acctCredit.balance < 5 →
      ∃ st' tx, transfer stCredit 1 3 2 5 "spend" 0 0 = (st', .ok tx))) :=
  ⟨by rfl, by rfl, by rfl,
   transfer_funds_gate_all_types stCredit 1 3 2 5 "spend" 0 0 acctCredit acctB
     (by rfl) (by rfl) (by rfl)⟩

/-- Counterexample to C5: depositing into an account id that resolves to no
account fails with PermissionDenied, not NotFound: the handlers take the
same 403 branch for a missing primary account as for a foreign one. -/
theorem deposit_missing_account_cex :
    getAccountById stPair 7 = none ∧
    deposit stPair 1 7 5 "cash" 0 = (stPair, .error .PermissionDenied) ∧
    (Except.error ApiError.PermissionDenied : Except ApiError Transaction) ≠
      .error .NotFound :=
  ⟨by rfl, by rfl, fun hc => ApiError.noConfusion (Except.error.inj hc)⟩

/-- C5 amended: for deposit, withdrawal, and transfer, a primary account
that is missing or owned by another user fails with PermissionDenied (the
handlers do not distinguish absence as NotFound), with no balance mutation
and no ledger append; only a transfer whose source checks pass but whose
destination is missing fails with NotFound, again mutating nothing. -/
theorem primary_account_failure_modes (st : MemStorage) (c aid ta : Nat)
    (amount : ℚ) (d : String) (n1 n2 : Nat)
    (hbad : getAccountById st aid = none ∨
      ∃ acct, getAccountById st aid = some acct ∧ acct.userId ≠ c) :
    deposit st c aid amount d n1 = (st, .error .PermissionDenied) ∧
    withdrawal st c aid amount d n1 = (st, .error .PermissionDenied) ∧
    transfer st c aid ta amount d n1 n2 = (st, .error .PermissionDenied) ∧
    (∀ st2 c2 fa ta2 amt2 d2 m1 m2 fromAcct,
      getAccountById st2 fa = some fromAcct → fromAcct.userId = c2 →
      getAccountById st2 ta2 = none →
      transfer st2 c2 fa ta2 amt2 d2 m1 m2 = (st2, .error .NotFound)) := by
  refine ⟨?_, ?_, ?_, ?_⟩
  · unfold deposit
    rcases hbad with hnone | ⟨acct, hacct, hownbad⟩
    · rw [hnone]
    · rw [hacct]
      dsimp only
      rw [if_pos hownbad]
  · unfold withdrawal
    rcases hbad with hnone | ⟨acct, hacct, hownbad⟩
    · rw [hnone]
    · rw [hacct]
      dsimp only
      rw [if_pos hownbad]
  · unfold transfer
    rcases hbad with hnone | ⟨acct, hacct, hownbad⟩
    · rw [hnone]
    · rw [hacct]
      dsimp only
      rw [if_pos hownbad]
  · intro st2 c2 fa ta2 amt2 d2 m1 m2 fromAcct hfa hown2 htanone
    unfold transfer
    rw [hfa]
    dsimp only
    rw [if_neg (not_not.mpr hown2), htanone]

/-- Witness for C5 amended: applied to the missing account id 7 in stPair. -/
theorem primary_account_failure_modes_witness :
    (getAccountById stPair 7 = none ∨
      ∃ acct, getAccountById stPair 7 = some acct ∧ acct.userId ≠ 1) ∧
    (deposit stPair 1 7 5 "cash" 0 = (stPair, .error .PermissionDenied) ∧
    withdrawal stPair 1 7 5 "cash" 0 = (stPair, .error .PermissionDenied) ∧
    transfer stPair 1 7 2 5 "cash" 0 0 = (stPair, .error .PermissionDenied) ∧
    (∀ st2 c2 fa ta2 amt2 d2 m1 m2 fromAcct,
      getAccountById st2 fa = some fromAcct → fromAcct.userId = c2 →
      getAccountById st2 ta2 = none →
      transfer st2 c2 fa ta2 amt2 d2 m1 m2 = (st2, .error .NotFound))) :=
  ⟨Or.inl (by rfl),
   primary_account_failure_modes stPair 1 7 2 5 "cash" 0 0 (Or.inl (by rfl))⟩

/-- The empty fresh store, as built by the MemStorage constructor. -/
def stEmpty : MemStorage :=
  { users := [], accounts := [], transactions := [],
    userIdCounter := 1, accountIdCounter := 1, transactionIdCounter := 1 }

/-- Registration payload for the first user. -/
def aliceInsert : InsertUser :=
  { firstName := "Alice", lastName := "Ann", email := "alice@example.com",
    password := "password1", phone := none, address := none }

/-- Registration payload for the second user. -/
def bobInsert : InsertUser :=
  { firstName := "Bob", lastName := "Burns", email := "bob@example.com",
    password := "password2", phone := none, address := none }

/-- State after registering Alice then Bob. -/
def stTwoUsers : MemStorage :=
  (registerUser (registerUser stEmpty aliceInsert "N1" "N2" "N3" 0).1
    bobInsert "N4" "N5" "N6" 0).1

/-- Profile update in which Bob switches his email to the one Alice holds. -/
def bobProfileUpdate : UpdateProfile :=
  { firstName := "Bob", lastName := "Burns", email := "alice@example.com" }

/-- State after Bob's profile update. -/
def stDupEmail : MemStorage := (updateProfile stTwoUsers 2 bobProfileUpdate).1

/-- C6 is violated by the code: both registrations succeed and a fresh
registration under the taken email is refused, yet the profile update that
sets user 2's email to user 1's email also succeeds, leaving two distinct
stored users with the same email. -/
theorem updateProfile_duplicate_email :
    (∃ u, (registerUser (registerUser stEmpty aliceInsert "N1" "N2" "N3" 0).1
      bobInsert "N4" "N5" "N6" 0).2 = .ok u) ∧
    (registerUser stTwoUsers
      { aliceInsert with firstName := "Carol" } "N7" "N8" "N9" 0).2 =
        .error .DuplicateEmail ∧
    (∃ u, (updateProfile stTwoUsers 2 bobProfileUpdate).2 = .ok u) ∧
    stDupEmail.users.map User.email = ["alice@example.com", "alice@example.com"] ∧
    stDupEmail.users.map User.id = [1, 2] :=
  ⟨⟨_, by rfl⟩, by rfl, ⟨_, by rfl⟩, by rfl, by rfl⟩

/-- Ordering actually produced by the stable descending sort: strictly later
date first, and among equal dates the smaller (earlier-appended) id first. -/
def txBefore (a b : Transaction) : Prop :=
  b.date < a.date ∨ (b.date = a.date ∧ a.id < b.id)

instance : DecidableRel txBefore := fun a b => by
  unfold txBefore
  infer_instance

/-- Membership in the insertion step. -/
lemma mem_insertByDateDesc (x y : Transaction) (l : List Transaction) :
    y ∈ insertByDateDesc x l ↔ y = x ∨ y ∈ l := by
  induction l with
  | nil => simp [insertByDateDesc]
  | cons a l ih =>
    unfold insertByDateDesc
    by_cases hd : a.date < x.date
    · rw [if_pos hd]
      simp [or_comm, or_assoc, or_left_comm]
    · rw [if_neg hd]
      simp [ih, or_comm, or_assoc, or_left_comm]

/-- The insertion step permutes the extended list. -/
lemma insertByDateDesc_perm (x : Transaction) (l : List Transaction) :
    List.Perm (insertByDateDesc x l) (x :: l) := by
  induction l with
  | nil => rfl
  | cons a l ih =>
    unfold insertByDateDesc
    by_cases hd : a.date < x.date
    · rw [if_pos hd]
    · rw [if_neg hd]
      exact (ih.cons a).trans (List.Perm.swap x a l)

/-- The insertion step keeps the list sorted for txBefore, provided every
already-present element with the same date has a smaller id. -/
lemma insertByDateDesc_pairwise (x : Transaction) (l : List Transaction)
    (hl : l.Pairwise txBefore)
    (hid : ∀ y ∈ l, y.date = x.date → y.id < x.id) :
    (insertByDateDesc x l).Pairwise txBefore := by
  induction l with
  | nil => simp [insertByDateDesc]
  | cons a l ih =>
    rcases List.pairwise_cons.mp hl with ⟨ha, hl'⟩
    unfold insertByDateDesc
    by_cases hd : a.date < x.date
    · rw [if_pos hd]
      refine List.pairwise_cons.mpr ⟨?_, hl⟩
      intro z hz
      rcases List.mem_cons.mp hz with rfl | hz'
      · exact Or.inl hd
      · rcases ha z hz' with hlt | ⟨heq, _⟩
        · exact Or.inl (hlt.trans hd)
        · exact Or.inl (heq ▸ hd)
    · rw [if_neg hd]
      refine List.pairwise_cons.mpr ⟨?_, ?_⟩
      · intro z hz
        rcases (mem_insertByDateDesc x z l).mp hz with rfl | hz'
        · rcases lt_or_eq_of_le (le_of_not_lt hd) with hlt | heq
          · exact Or.inl hlt
          · exact Or.inr ⟨heq, hid a (List.mem_cons_self a l) heq.symm⟩
        · exact ha z hz'
      · exact ih hl' (fun y hy => hid y (List.mem_cons_of_mem a hy))

/-- Sorting keeps the elements (as a permutation), generalized over the
accumulator. -/
lemma foldl_insert_perm (l acc : List Transaction) :
    List.Perm (l.foldl (fun acc x => insertByDateDesc x acc) acc) (acc ++ l) := by
  induction l generalizing acc with
  | nil => simp
  | cons x xs ih =>
    simp only [List.foldl_cons]
    refine (ih (insertByDateDesc x acc)).trans ?_
    refine (List.Perm.append_right xs (insertByDateDesc_perm x acc)).trans ?_
    exact List.perm_middle.symm

/-- Sorting sorts, generalized over an accumulator whose elements all
precede (in id) every element still to be inserted. -/
lemma foldl_insert_pairwise : ∀ l acc : List Transaction,
    acc.Pairwise txBefore →
    (∀ y ∈ acc, ∀ x ∈ l, y.id < x.id) →
    l.Pairwise (fun a b => a.id < b.id) →
    (l.foldl (fun acc x => insertByDateDesc x acc) acc).Pairwise txBefore := by
  intro l
  induction l with
  | nil => exact fun acc hacc _ _ => hacc
  | cons x xs ih =>
    intro acc hacc hcross hids
    rcases List.pairwise_cons.mp hids with ⟨hx, hxs⟩
    simp only [List.foldl_cons]
    refine ih _ ?_ ?_ hxs
    · exact insertByDateDesc_pairwise x acc hacc
        (fun y hy _ => hcross y hy x (List.mem_cons_self x xs))
    · intro y hy z hz
      rcases (mem_insertByDateDesc x y acc).mp hy with rfl | hy'
      · exact hx z hz
      · exact hcross y hy' z (List.mem_cons_of_mem x hz)

/-- sortByDateDesc is a permutation of its input. -/
lemma sortByDateDesc_perm (l : List Transaction) :
    List.Perm (sortByDateDesc l) l := by
  simpa using foldl_insert_perm l []

/-- sortByDateDesc sorts by date descending with ties in ascending id
order, whenever the input ids are strictly increasing. -/
lemma sortByDateDesc_pairwise (l : List Transaction)
    (hids : l.Pairwise (fun a b => a.id < b.id)) :
    (sortByDateDesc l).Pairwise txBefore :=
  foldl_insert_pairwise l [] (by simp) (by simp) hids

/-- Two ledger entries for the same user and account carrying the same
timestamp; ids record the append order. -/
def txT1 : Transaction :=
  { id := 1, userId := 1, accountId := 1, type := "deposit", amount := 5,
    description := "first", date := 100, toAccountId := none }

/-- The later append, with the same timestamp. -/
def txT2 : Transaction :=
  { id := 2, userId := 1, accountId := 1, type := "deposit", amount := 7,
    description := "second", date := 100, toAccountId := none }

/-- Store whose ledger holds the two tied entries in append order. -/
def stTies : MemStorage :=
  { users := [], accounts := [], transactions := [txT1, txT2],
    userIdCounter := 1, accountIdCounter := 1, transactionIdCounter := 3 }

/-- Counterexample to C7: with two equal timestamps, the listing returns the
entries in insertion order ascending - the earlier append txT1 comes first,
not the most recent one as the claim states (the JavaScript sort is stable
and the comparator returns 0 on ties). -/
theorem listByUser_tie_order_cex :
    txT1.date = txT2.date ∧ txT1 ≠ txT2 ∧
    getTransactionsByUserId stTies 1 = [txT1, txT2] ∧
    getTransactionsByUserId stTies 1 ≠ [txT2, txT1] :=
  ⟨by rfl, by decide, by decide, by decide⟩

/-- C7 amended: for every store whose ledger ids are strictly increasing in
append order, listByUser returns exactly the matching transactions, sorted
by timestamp descending with equal timestamps in insertion order ascending
(earliest append first); listByAccount obeys the same ordering. -/
theorem listTransactions_ordering (st : MemStorage) (uid aid : Nat)
    (hids : st.transactions.Pairwise (fun a b => a.id < b.id)) :
    (getTransactionsByUserId st uid).Pairwise txBefore ∧
    List.Perm (getTransactionsByUserId st uid)
      (st.transactions.filter (fun t => t.userId == uid)) ∧
    (getTransactionsByAccountId st aid).Pairwise txBefore ∧
    List.Perm (getTransactionsByAccountId st aid)
      (st.transactions.filter (fun t => t.accountId == aid)) := by
  have hu : (st.transactions.filter (fun t => t.userId == uid)).Pairwise
      (fun a b => a.id < b.id) :=
    List.Pairwise.sublist (List.filter_sublist _) hids
  have ha : (st.transactions.filter (fun t => t.accountId == aid)).Pairwise
      (fun a b => a.id < b.id) :=
    List.Pairwise.sublist (List.filter_sublist _) hids
  exact ⟨sortByDateDesc_pairwise _ hu, sortByDateDesc_perm _,
    sortByDateDesc_pairwise _ ha, sortByDateDesc_perm _⟩

/-- Witness for C7 amended: the tied two-entry ledger satisfies the
increasing-id hypothesis and the ordering conclusion. -/
theorem listTransactions_ordering_witness :
    stTies.transactions.Pairwise (fun a b => a.id < b.id) ∧
    ((getTransactionsByUserId stTies 1).Pairwise txBefore ∧
    List.Perm (getTransactionsByUserId stTies 1)
      (stTies.transactions.filter (fun t => t.userId == 1)) ∧
    (getTransactionsByAccountId stTies 1).Pairwise txBefore ∧
    List.Perm (getTransactionsByAccountId stTies 1)
      (stTies.transactions.filter (fun t => t.accountId == 1))) :=
  ⟨by decide, listTransactions_ordering stTies 1 1 (by decide)⟩

/-- Two stored users sharing one email but holding different passwords
(reachable through registration followed by the profile-update email
change). -/
def userP1 : User :=
  { id := 1, firstName := "Alice", lastName := "Ann", email := "dup@example.com",
    password := "pw1", phone := none, address := none }

/-- The second user under the shared email. -/
def userP2 : User :=
  { id := 2, firstName := "Bob", lastName := "Burns", email := "dup@example.com",
    password := "pw2", phone := none, address := none }

/-- Store holding the two users with the shared email. -/
def stDupUsers : MemStorage :=
  { users := [userP1, userP2], accounts := [], transactions := [],
    userIdCounter := 3, accountIdCounter := 1, transactionIdCounter := 1 }

/-- Counterexample to C10: a stored user (userP2) has the given email and
exactly the supplied password, yet authentication fails, because only the
first user holding the email is consulted. -/
theorem validateUserPassword_first_match_cex :
    userP2 ∈ stDupUsers.users ∧ userP2.email = "dup@example.com" ∧
    userP2.password = "pw2" ∧
    validateUserPassword stDupUsers "dup@example.com" "pw2" = none ∧
    login stDupUsers "dup@example.com" "pw2" = .error .InvalidCredentials :=
  ⟨by decide, by rfl, by rfl, by rfl, by rfl⟩

/-- Under pairwise-distinct emails, the first user found under an email is
the only one holding it. -/
lemma find?_email_unique (l : List User) (e : String) (u v : User)
    (huniq : l.Pairwise (fun a b => a.email ≠ b.email))
    (hfind : l.find? (fun w => w.email == e) = some u)
    (hv : v ∈ l) (hve : v.email = e) : v = u := by
  induction l with
  | nil => cases hv
  | cons a l ih =>
    rcases List.pairwise_cons.mp huniq with ⟨ha, hl⟩
    rw [List.find?_cons] at hfind
    cases hae : (a.email == e) with
    | false =>
      simp only [hae] at hfind
      rcases List.mem_cons.mp hv with rfl | hv'
      · exact absurd hve (by simpa using hae)
      · exact ih hl hfind hv'
    | true =>
      simp only [hae] at hfind
      have hau := Option.some.inj hfind
      rcases List.mem_cons.mp hv with rfl | hv'
      · exact hau
      · have hae' : a.email = e := by simpa using hae
        exact absurd (hae'.trans hve.symm) (ha v hv')

/-- C10 amended: authentication succeeds returning u exactly when the FIRST
stored user with the given email is u and its stored password is string
equal to the supplied one (plaintext comparison, no hashing); when no two
stored users share an email this coincides with the existential reading of
the claim. -/
theorem validateUserPassword_spec (st : MemStorage) (e p : String) (u : User) :
    (validateUserPassword st e p = some u ↔
      getUserByEmail st e = some u ∧ u.password = p) ∧
    (st.users.Pairwise (fun a b => a.email ≠ b.email) →
      ((∃ v ∈ st.users, v.email = e ∧ v.password = p) ↔
        ∃ v, validateUserPassword st e p = some v)) := by
  constructor
  · unfold validateUserPassword
    cases hge : getUserByEmail st e with
    | none => simp
    | some w =>
      dsimp only
      by_cases hpw : (w.password == p) = true
      · rw [if_pos hpw]
        constructor
        · intro hvu
          obtain rfl := Option.some.inj hvu
          exact ⟨rfl, by simpa using hpw⟩
        · exact fun h => h.1
      · rw [if_neg hpw]
        constructor
        · exact fun hc => Option.noConfusion hc
        · rintro ⟨hvu, hp⟩
          rw [← Option.some.inj hvu] at hp
          exact absurd (by simpa using hp) hpw
  · intro huniq
    constructor
    · rintro ⟨v, hv, hve, hvp⟩
      have hsome : ∃ w, getUserByEmail st e = some w := by
        have hs : (st.users.find? (fun w => w.email == e)).isSome :=
          List.find?_isSome.mpr ⟨v, hv, by simpa using hve⟩
        exact Option.isSome_iff_exists.mp hs
      obtain ⟨w, hw⟩ := hsome
      obtain rfl := find?_email_unique st.users e w v huniq hw hv hve
      refine ⟨v, ?_⟩
      unfold validateUserPassword
      rw [hw]
      dsimp only
      rw [if_pos (by simpa using hvp : (v.password == p) = true)]
    · rintro ⟨v, hv⟩
      unfold validateUserPassword at hv
      cases hge : getUserByEmail st e with
      | none =>
        rw [hge] at hv
        exact Option.noConfusion hv
      | some w =>
        rw [hge] at hv
        dsimp only at hv
        by_cases hpw : (w.password == p) = true
        · rw [if_pos hpw] at hv
          rw [Option.some.inj hv] at hge hpw
          refine ⟨v, List.mem_of_find?_eq_some hge, ?_, by simpa using hpw⟩
          simpa using List.find?_some hge
        · rw [if_neg hpw] at hv
          exact Option.noConfusion hv

/-- Witness for C10 amended: at a one-user store, both parts hold for the
stored user and its password. -/
theorem validateUserPassword_spec_witness :
    (validateUserPassword ({ stDupUsers with users := [userP1] }) "dup@example.com" "pw1" = some userP1 ↔
      getUserByEmail ({ stDupUsers with users := [userP1] }) "dup@example.com" = some userP1 ∧
      userP1.password = "pw1") ∧
    (({ stDupUsers with users := [userP1] } : MemStorage).users.Pairwise
        (fun a b => a.email ≠ b.email) →
      ((∃ v ∈ ({ stDupUsers with users := [userP1] } : MemStorage).users,
          v.email = "dup@example.com" ∧ v.password = "pw1") ↔
        ∃ v, validateUserPassword ({ stDupUsers with users := [userP1] })
          "dup@example.com" "pw1" = some v)) :=
  validateUserPassword_spec { stDupUsers with users := [userP1] } "dup@example.com" "pw1" userP1
